import Mathlib

/-!
Verification of the resume-analyzer backend against its specification.

This file shallowly embeds the JavaScript backend:
  * `services/analysisService.js` — `extractTextFromPDF`'s text validation,
    `analyzeWithAI`'s error classification, `validateAndSanitizeAnalysis`,
    `validateRating`;
  * `controllers/resumeController.js` — `uploadResume`, `getAllResumes`,
    `getResumeById`, `deleteResume`, `getResumeStats`;
  * `db/index.js` — the `resumes` table schema (JSONB list columns).

Modelling conventions:
  * Decoded JSON values are `JValue`; JavaScript numbers are modelled as exact
    rationals (`ℚ`).  JavaScript renders numbers of the magnitudes relevant
    here in plain decimal notation, so `parseInt` applied to a number is
    truncation toward zero; IEEE-754 rounding and exponent-notation rendering
    of extreme magnitudes are outside the model.
  * A JavaScript string's `.length` and `.substring` count UTF-16 code units;
    the model counts characters (`String.data`), identifying the two, which
    agree on all strings without surrogate pairs.
  * Objects produced by `JSON.parse` have unique keys, so association-list
    `lookup` is property access.
  * A thrown exception is `Option.none` (for pure helpers) or an explicit
    error value (for the HTTP layer).
-/

/-- A decoded JSON / JavaScript value (the shapes `JSON.parse` can produce). -/
inductive JValue where
  | null
  | bool (b : Bool)
  | num (q : ℚ)
  | str (s : String)
  | arr (elems : List JValue)
  | obj (fields : List (String × JValue))

/-- A decoded JSON object, as handed to `validateAndSanitizeAnalysis`. -/
abbrev JObj := List (String × JValue)

/-- JavaScript truthiness: `false`, `0`, `""`, `null` (and `NaN`, which JSON
cannot produce) are falsy; every other value, including `[]` and `\x7b\x7d`,
is truthy. -/
def jsTruthy : JValue → Bool
  | .null => false
  | .bool b => b
  | .num q => decide (q ≠ 0)
  | .str s => decide (s ≠ "")
  | .arr _ => true
  | .obj _ => true

/-- `v || d` on a possibly-undefined value (`none` models a missing property,
i.e. `undefined`). -/
def jsOrDefault (v : Option JValue) (d : JValue) : JValue :=
  match v with
  | some x => if jsTruthy x then x else d
  | none => d

/-- JavaScript character count of a string (`s.length`). -/
def charLen (s : String) : ℕ := s.data.length

/-- `s.substring(0, n)`: the first `n` characters of `s`. -/
def strTakeData (n : ℕ) (s : String) : String := ⟨s.data.take n⟩

/-- Property access `v[k]` on a non-`null` value: `some` is the property's
value, `none` is `undefined`.  Strings and arrays expose `length`; other
primitives have none of the properties this program reads.  (Access on `null`
throws and is handled separately at each call site.) -/
def jsProp : JValue → String → Option JValue
  | .str s, k => if k = "length" then some (.num (charLen s)) else none
  | .arr l, k => if k = "length" then some (.num (l.length)) else none
  | .obj fs, k => fs.lookup k
  | _, _ => none

/-- Truncation toward zero of a rational, as `parseInt` performs on the plain
decimal rendering of a number. -/
def jsTrunc (q : ℚ) : ℤ := if 0 ≤ q then q.floor else -((-q).floor)

/-- Decimal digits of a natural number below 10 as a character. -/
def digitChar (n : ℕ) : Char :=
  Char.ofNat (48 + n)

/-- Fractional decimal digits of `0 ≤ r < 1`, with fuel (every JavaScript
number has a terminating decimal expansion, so the fuel is never exhausted on
values this program can see). -/
def fracDigits : ℕ → ℚ → List Char
  | 0, _ => []
  | fuel + 1, r =>
    if r = 0 then []
    else
      let r10 := r * 10
      digitChar r10.floor.toNat :: fracDigits fuel (r10 - r10.floor)

/-- Plain decimal rendering of a rational, matching `String(n)` for the
JavaScript numbers this program handles (integers print without a decimal
point; JavaScript's exponent notation for extreme magnitudes is outside the
model). -/
def ratToString (q : ℚ) : String :=
  let a := |q|
  let ip : ℕ := a.floor.toNat
  let frac := fracDigits 1200 (a - a.floor)
  let base := if frac = [] then toString ip else toString ip ++ "." ++ ⟨frac⟩
  if q < 0 then "-" ++ base else base

/-- JavaScript `String(v)` conversion, as used by `parseInt` and `JSON.parse`
when handed a non-string argument: `null` prints as `"null"`, arrays join
their elements with commas (`null` elements joining as the empty string), and
plain objects print as `"[object Object]"`. -/
def jsToString : JValue → String
  | .null => "null"
  | .bool true => "true"
  | .bool false => "false"
  | .num q => ratToString q
  | .str s => s
  | .arr l => joinElems l
  | .obj _ => "[object Object]"
where
  joinElems : List JValue → String
    | [] => ""
    | x :: xs =>
      let hd :=
        match x with
        | .null => ""
        | v => jsToString v
      match xs with
      | [] => hd
      | _ :: _ => hd ++ "," ++ joinElems xs
termination_by structural v => v

/-- `Array.prototype.toString`: elements joined with `","`. -/
def jsArrJoin (l : List JValue) : String := jsToString.joinElems l

/-- Numeric value of a decimal digit character, `none` otherwise. -/
def decDigit? (c : Char) : Option ℕ :=
  if '0' ≤ c ∧ c ≤ '9' then some (c.toNat - 48) else none

/-- Numeric value of a hexadecimal digit character, `none` otherwise. -/
def hexDigit? (c : Char) : Option ℕ :=
  if '0' ≤ c ∧ c ≤ '9' then some (c.toNat - 48)
  else if 'a' ≤ c ∧ c ≤ 'f' then some (c.toNat - 87)
  else if 'A' ≤ c ∧ c ≤ 'F' then some (c.toNat - 55)
  else none

/-- Longest prefix of digits (in the given base reader), with its value. -/
def takeDigits (rd : Char → Option ℕ) (base : ℕ) : List Char → ℕ × ℕ × List Char
  | [] => (0, 0, [])
  | c :: cs =>
    match rd c with
    | none => (0, 0, c :: cs)
    | some d =>
      let (cnt, v, rest) := takeDigits rd base cs
      (cnt + 1, d * base ^ cnt + v, rest)

/-- JavaScript whitespace test (the code points `parseInt` skips; ASCII
whitespace suffices for the strings this program can see). -/
def jsWhite (c : Char) : Bool :=
  c = ' ' ∨ c = '\t' ∨ c = '\n' ∨ c = '\r' ∨ c = '\x0b' ∨ c = '\x0c'

/-- `parseInt(s)` (radix unspecified): skip leading whitespace, read an
optional sign, detect a `0x`/`0X` prefix as hexadecimal, then take the longest
digit prefix; `none` models `NaN` (no digits). -/
def parseIntStr (s : String) : Option ℤ :=
  let cs := s.data.dropWhile jsWhite
  let (sgn, cs) : ℤ × List Char :=
    match cs with
    | '-' :: t => (-1, t)
    | '+' :: t => (1, t)
    | t => (1, t)
  match cs with
  | '0' :: x :: t =>
    if x = 'x' ∨ x = 'X' then
      match takeDigits hexDigit? 16 t with
      | (0, _, _) => none
      | (_ + 1, v, _) => some (sgn * v)
    else
      match takeDigits decDigit? 10 ('0' :: x :: t) with
      | (0, _, _) => none
      | (_ + 1, v, _) => some (sgn * v)
  | cs =>
    match takeDigits decDigit? 10 cs with
    | (0, _, _) => none
    | (_ + 1, v, _) => some (sgn * v)

/-- `parseInt(v)` on an arbitrary (possibly missing) value: the argument is
converted with `String(v)` first, so a number truncates toward zero, `null`,
booleans and plain objects give `NaN` (`none`), and arrays parse their joined
rendering. -/
def jsParseInt (v : Option JValue) : Option ℤ :=
  match v with
  | none => none
  | some .null => none
  | some (.bool _) => none
  | some (.num q) => some (jsTrunc q)
  | some (.str s) => parseIntStr s
  | some (.arr l) => parseIntStr (jsArrJoin l)
  | some (.obj _) => none

/-- `validateRating` (analysisService.js, lines 346–358): `parseInt` the raw
rating; `NaN` or a value below 1 becomes 1, a value above 10 becomes 10. -/
def validateRating (rating : Option JValue) : ℤ :=
  match jsParseInt rating with
  | none => 1
  | some n => if n < 1 then 1 else if n > 10 then 10 else n

/-- A decimal numeric literal with optional fraction and exponent, returning
its value and the remaining input. -/
def decLit (cs : List Char) : Option (ℚ × List Char) :=
  let (icnt, iv, rest) := takeDigits decDigit? 10 cs
  let (fcnt, fv, rest') :=
    match rest with
    | '.' :: t =>
      let (c, v, r) := takeDigits decDigit? 10 t
      (c, v, r)
    | t => (0, 0, t)
  if icnt + fcnt = 0 then none
  else
    let mant : ℚ := iv + (fv : ℚ) / 10 ^ fcnt
    match rest' with
    | e :: t =>
      if e = 'e' ∨ e = 'E' then
        let (es, t') : ℤ × List Char :=
          match t with
          | '-' :: u => (-1, u)
          | '+' :: u => (1, u)
          | u => (1, u)
        match takeDigits decDigit? 10 t' with
        | (0, _, _) => none
        | (_ + 1, ev, r) => some (mant * 10 ^ (es * ev), r)
      else some (mant, e :: t)
    | [] => some (mant, [])

/-- `ToNumber` of a string (the implicit coercion in `x > 1000` when `x` is a
string): trimmed empty input is `0`, otherwise the whole string must be a
numeric literal; `none` models `NaN`.  (`Infinity` literals are outside the
model; no claim exercises them.) -/
def jsToNumber (s : String) : Option ℚ :=
  let cs := s.data.dropWhile jsWhite
  let cs := (cs.reverse.dropWhile jsWhite).reverse
  if cs = [] then some 0
  else
    let (sgn, cs) : ℚ × List Char :=
      match cs with
      | '-' :: t => (-1, t)
      | '+' :: t => (1, t)
      | t => (1, t)
    match cs with
    | '0' :: x :: t =>
      if x = 'x' ∨ x = 'X' then
        match takeDigits hexDigit? 16 t with
        | (_ + 1, v, []) => some (sgn * v)
        | _ => none
      else
        match decLit ('0' :: x :: t) with
        | some (q, []) => some (sgn * q)
        | _ => none
    | cs =>
      match decLit cs with
      | some (q, []) => some (sgn * q)
      | _ => none

/-- The comparison `w > cap` where `w` is the value of a `length` property
(or `undefined`): numbers compare numerically, other values coerce with
`ToNumber` (`undefined`, `NaN` and plain objects compare false). -/
def jsGTnum (w : Option JValue) (cap : ℚ) : Bool :=
  match w with
  | none => false
  | some (.num q) => decide (cap < q)
  | some .null => decide (cap < 0)
  | some (.bool b) => decide (cap < (if b then (1 : ℚ) else 0))
  | some (.str s) =>
    match jsToNumber s with
    | some q => decide (cap < q)
    | none => false
  | some (.arr l) =>
    match jsToNumber (jsArrJoin l) with
    | some q => decide (cap < q)
    | none => false
  | some (.obj _) => false

/-- The test `v.length > cap` from the sanitizer's length-cap step. -/
def jsLengthGT (v : JValue) (cap : ℚ) : Bool :=
  jsGTnum (jsProp v "length") cap

/-- `v.substring(0, keep) + '...'`: defined on strings; on any other value
the `substring` call throws a `TypeError` (`none`). -/
def capTrunc (v : JValue) (keep : ℕ) : Option JValue :=
  match v with
  | .str s => some (.str (strTakeData keep s ++ "..."))
  | _ => none

/-- The length-cap step (analysisService.js, lines 327–334):
`if (v && v.length > cap) v = v.substring(0, keep) + '...'`. -/
def capField (v : JValue) (cap : ℚ) (keep : ℕ) : Option JValue :=
  if jsTruthy v && jsLengthGT v cap then capTrunc v keep else some v

/-- The `description` normalization of a work-experience entry: an array
passes through; a truthy scalar is wrapped in a one-element list; anything
falsy (or missing) becomes the one-element placeholder list. -/
def descList (w : Option JValue) : JValue :=
  match w with
  | some (.arr l) => .arr l
  | some v => if jsTruthy v then .arr [v] else .arr [.str "No description provided"]
  | none => .arr [.str "No description provided"]

/-- The `technologies` normalization of a project entry: an array passes
through, anything else becomes the empty list. -/
def techList (w : Option JValue) : JValue :=
  match w with
  | some (.arr l) => .arr l
  | _ => .arr []

/-- One work-experience entry (analysisService.js, lines 298–304): each field
defaults when falsy.  Property access on a `null` entry throws (`none`). -/
def sanitizeWorkItem (exp : JValue) : Option JValue :=
  match exp with
  | .null => none
  | exp =>
    some (.obj [
      ("role", jsOrDefault (jsProp exp "role") (.str "Not specified")),
      ("company", jsOrDefault (jsProp exp "company") (.str "Not specified")),
      ("duration", jsOrDefault (jsProp exp "duration") (.str "Not specified")),
      ("description", descList (jsProp exp "description"))])

/-- One education entry (analysisService.js, lines 307–311). -/
def sanitizeEduItem (edu : JValue) : Option JValue :=
  match edu with
  | .null => none
  | edu =>
    some (.obj [
      ("degree", jsOrDefault (jsProp edu "degree") (.str "Not specified")),
      ("institution", jsOrDefault (jsProp edu "institution") (.str "Not specified")),
      ("graduation_year", jsOrDefault (jsProp edu "graduation_year") (.str "Not specified"))])

/-- One project entry (analysisService.js, lines 314–318). -/
def sanitizeProjectItem (project : JValue) : Option JValue :=
  match project with
  | .null => none
  | project =>
    some (.obj [
      ("name", jsOrDefault (jsProp project "name") (.str "Unnamed Project")),
      ("description", jsOrDefault (jsProp project "description") (.str "No description provided")),
      ("technologies", techList (jsProp project "technologies"))])

/-- One certification entry (analysisService.js, lines 321–325). -/
def sanitizeCertItem (cert : JValue) : Option JValue :=
  match cert with
  | .null => none
  | cert =>
    some (.obj [
      ("name", jsOrDefault (jsProp cert "name") (.str "Not specified")),
      ("issuer", jsOrDefault (jsProp cert "issuer") (.str "Not specified")),
      ("year", jsOrDefault (jsProp cert "year") (.str "Not specified"))])

/-- `Array.prototype.map` with a per-element function that can throw: the
first throwing element aborts the whole map. -/
def mapThrow (f : JValue → Option JValue) : List JValue → Option (List JValue)
  | [] => some []
  | x :: xs => do
    let y ← f x
    let ys ← mapThrow f xs
    pure (y :: ys)

/-- The value of `analysis.k` when the code guards it with `Array.isArray`:
the element list when the property is an array, else the empty list. -/
def arrOrEmpty (v : Option JValue) : List JValue :=
  match v with
  | some (.arr l) => l
  | _ => []

/-- `validateAndSanitizeAnalysis` (analysisService.js, lines 275–339):
normalizes an arbitrary decoded JSON object into the fixed Analysis schema.
`fileName` is used only for logging.  The result is the sanitized object
(its keys in the insertion order of the source), or `none` when the function
throws: property access on a `null` entry of a structured list, or
`substring` on a non-string `summary`/`improvement_areas` whose truthy value
passes the length guard. -/
def validateAndSanitizeAnalysis (analysis : JObj) (fileName : String) : Option JObj :=
  let g := fun k => analysis.lookup k
  do
    let we ← mapThrow sanitizeWorkItem (arrOrEmpty (g "work_experience"))
    let ed ← mapThrow sanitizeEduItem (arrOrEmpty (g "education"))
    let pr ← mapThrow sanitizeProjectItem (arrOrEmpty (g "projects"))
    let ce ← mapThrow sanitizeCertItem (arrOrEmpty (g "certifications"))
    let summary ← capField (jsOrDefault (g "summary") .null) 1000 997
    let ia ← capField
      (jsOrDefault (g "improvement_areas") (.str "No specific improvement areas identified."))
      2000 1997
    pure [
      ("name", jsOrDefault (g "name") .null),
      ("email", jsOrDefault (g "email") .null),
      ("phone", jsOrDefault (g "phone") .null),
      ("linkedin_url", jsOrDefault (g "linkedin_url") .null),
      ("portfolio_url", jsOrDefault (g "portfolio_url") .null),
      ("summary", summary),
      ("work_experience", .arr we),
      ("education", .arr ed),
      ("technical_skills", .arr (arrOrEmpty (g "technical_skills"))),
      ("soft_skills", .arr (arrOrEmpty (g "soft_skills"))),
      ("projects", .arr pr),
      ("certifications", .arr ce),
      ("resume_rating", .num (validateRating (g "resume_rating"))),
      ("improvement_areas", ia),
      ("upskill_suggestions", .arr (arrOrEmpty (g "upskill_suggestions")))]

/-- Whitespace skipped by `JSON.parse`. -/
def skipWS (cs : List Char) : List Char :=
  cs.dropWhile (fun c => c = ' ' ∨ c = '\t' ∨ c = '\n' ∨ c = '\r')

/-- A JSON string body: characters up to the closing quote, honouring the
escape sequences of the JSON grammar. -/
def parseJString : ℕ → List Char → Option (String × List Char)
  | 0, _ => none
  | _, [] => none
  | fuel + 1, c :: cs =>
    if c = '"' then some ("", cs)
    else if c = '\\' then
      match cs with
      | [] => none
      | e :: cs' =>
        let esc : Option Char :=
          if e = '"' then some '"'
          else if e = '\\' then some '\\'
          else if e = '/' then some '/'
          else if e = 'b' then some '\x08'
          else if e = 'f' then some '\x0c'
          else if e = 'n' then some '\n'
          else if e = 'r' then some '\r'
          else if e = 't' then some '\t'
          else none
        match esc with
        | some ch => do
          let (s, rest) ← parseJString fuel cs'
          pure (⟨ch :: s.data⟩, rest)
        | none =>
          if e = 'u' then
            match cs' with
            | a :: b :: c2 :: d :: cs'' => do
              let ha ← hexDigit? a
              let hb ← hexDigit? b
              let hc ← hexDigit? c2
              let hd ← hexDigit? d
              let (s, rest) ← parseJString fuel cs''
              pure (⟨Char.ofNat (((ha * 16 + hb) * 16 + hc) * 16 + hd) :: s.data⟩, rest)
            | _ => none
          else none
    else do
      let (s, rest) ← parseJString fuel cs
      pure (⟨c :: s.data⟩, rest)

/-- A JSON number: optional minus, digits, optional fraction and exponent. -/
def parseJNum (cs : List Char) : Option (ℚ × List Char) :=
  let (sgn, cs') : ℚ × List Char :=
    match cs with
    | '-' :: t => (-1, t)
    | t => (1, t)
  match takeDigits decDigit? 10 cs' with
  | (0, _, _) => none
  | (_ + 1, iv, rest) =>
    let (fq, rest') : ℚ × List Char :=
      match rest with
      | '.' :: t =>
        match takeDigits decDigit? 10 t with
        | (0, _, _) => (0, '.' :: t)
        | (c + 1, fv, r) => ((fv : ℚ) / 10 ^ (c + 1), r)
      | t => (0, t)
    let base : ℚ := sgn * (iv + fq)
    match rest' with
    | e :: t =>
      if e = 'e' ∨ e = 'E' then
        let (es, t') : ℤ × List Char :=
          match t with
          | '-' :: u => (-1, u)
          | '+' :: u => (1, u)
          | u => (1, u)
        match takeDigits decDigit? 10 t' with
        | (0, _, _) => some (base, e :: t)
        | (_ + 1, ev, r) => some (base * 10 ^ (es * ev), r)
      else some (base, e :: t)
    | [] => some (base, [])

mutual

/-- One JSON value, by recursive descent with fuel (the fuel is at least the
input length at every call site, so it is never exhausted). -/
def parseJValue : ℕ → List Char → Option (JValue × List Char)
  | 0, _ => none
  | fuel + 1, cs =>
    match skipWS cs with
    | 'n' :: 'u' :: 'l' :: 'l' :: rest => some (.null, rest)
    | 't' :: 'r' :: 'u' :: 'e' :: rest => some (.bool true, rest)
    | 'f' :: 'a' :: 'l' :: 's' :: 'e' :: rest => some (.bool false, rest)
    | '"' :: rest => do
      let (s, rest') ← parseJString (fuel + 1) rest
      pure (.str s, rest')
    | '[' :: rest =>
      (match skipWS rest with
       | ']' :: rest' => some (.arr [], rest')
       | rest' => do
         let (l, rest'') ← parseJItems fuel rest'
         pure (.arr l, rest''))
    | '{' :: rest =>
      (match skipWS rest with
       | '}' :: rest' => some (.obj [], rest')
       | rest' => do
         let (fs, rest'') ← parseJFields fuel rest'
         pure (.obj fs, rest''))
    | rest => do
      let (q, rest') ← parseJNum rest
      pure (.num q, rest')

/-- Comma-separated JSON array items up to the closing bracket. -/
def parseJItems : ℕ → List Char → Option (List JValue × List Char)
  | 0, _ => none
  | fuel + 1, cs => do
    let (v, rest) ← parseJValue fuel cs
    match skipWS rest with
    | ',' :: rest' => do
      let (l, rest'') ← parseJItems fuel rest'
      pure (v :: l, rest'')
    | ']' :: rest' => pure ([v], rest')
    | _ => none

/-- Comma-separated JSON object members up to the closing brace. -/
def parseJFields : ℕ → List Char → Option (List (String × JValue) × List Char)
  | 0, _ => none
  | fuel + 1, cs => do
    match skipWS cs with
    | '"' :: rest => do
      let (k, rest') ← parseJString (fuel + 1) rest
      match skipWS rest' with
      | ':' :: rest'' => do
        let (v, rest3) ← parseJValue fuel rest''
        match skipWS rest3 with
        | ',' :: rest4 => do
          let (fs, rest5) ← parseJFields fuel rest4
          pure ((k, v) :: fs, rest5)
        | '}' :: rest4 => pure ([(k, v)], rest4)
        | _ => none
      | _ => none
    | _ => none

end

/-- `JSON.parse` on a string: one JSON value consuming the whole input
(modulo surrounding whitespace); `none` models a thrown `SyntaxError`. -/
def jsonParseText (s : String) : Option JValue :=
  match parseJValue (s.data.length + 2) s.data with
  | some (v, rest) => if skipWS rest = [] then some v else none
  | none => none

/-- `JSON.parse(v)` on an arbitrary value: a non-string argument is first
coerced with `String(v)` — so an array of objects becomes
`"[object Object],..."` and the empty array becomes `""`, neither of which
parses. -/
def jsJSONParse (v : JValue) : Option JValue :=
  match v with
  | .str s => jsonParseText s
  | v => jsonParseText (jsToString v)

/-- A JavaScript error as the controller observes it: `statusCode` and
`isOperational` are set by the `AppError` constructor (errorHandler.js,
lines 9–18); `code` carries driver/system codes such as `ECONNRESET` or
PostgreSQL's `23505`. -/
structure JsError where
  message : String
  statusCode : Option ℕ
  code : Option String
  isOperational : Bool

/-- `new AppError(message, statusCode)`. -/
def appError (message : String) (status : ℕ) : JsError :=
  ⟨message, some status, none, true⟩

/-- A plain `Error` (e.g. raised inside the AI client library). -/
def plainError (message : String) : JsError :=
  ⟨message, none, none, false⟩

/-- `haystack.includes(needle)` on character lists. -/
def startsWithChars : List Char → List Char → Bool
  | _, [] => true
  | [], _ :: _ => false
  | x :: xs, y :: ys => x = y && startsWithChars xs ys

/-- Whether `ys` occurs contiguously inside `xs`. -/
def containsChars : List Char → List Char → Bool
  | [], ys => ys.isEmpty
  | x :: xs, ys => startsWithChars (x :: xs) ys || containsChars xs ys

/-- `s.includes(sub)`. -/
def strIncludes (s sub : String) : Bool := containsChars s.data sub.data

/-- `s.trim()`. -/
def jsTrim (s : String) : String :=
  ⟨((s.data.dropWhile jsWhite).reverse.dropWhile jsWhite).reverse⟩

/-- The text validation of `extractTextFromPDF` (analysisService.js, lines
62–69), applied to the text produced by the out-of-scope `pdf-parse`
collaborator: empty or whitespace-only text and text shorter than 50
characters are rejected with an `AppError` carrying status 400. -/
def extractTextFromPDF (extractedText : String) : Except JsError String :=
  if charLen (jsTrim extractedText) = 0 then
    .error (appError "PDF appears to be empty or contains only images. Please upload a PDF with text content." 400)
  else if charLen (jsTrim extractedText) < 50 then
    .error (appError "PDF contains very little text content. Please ensure the PDF is a proper resume document." 400)
  else .ok extractedText

/-- The catch block of `analyzeWithAI` (analysisService.js, lines 241–266):
an `AppError` is rethrown unchanged; other failures are classified by
substring sniffing of the message — in particular a message containing
`timeout` (or an `ECONNRESET` code) becomes an `AppError` with status 408. -/
def analyzeWithAICatch (error : JsError) : JsError :=
  if error.isOperational then error
  else if strIncludes error.message "API key" then
    appError "AI service configuration error. Please contact support." 500
  else if strIncludes error.message "quota" || strIncludes error.message "QUOTA_EXCEEDED" then
    appError "AI service temporarily unavailable due to usage limits. Please try again later." 503
  else if strIncludes error.message "RATE_LIMIT" then
    appError "Too many requests. Please wait a moment and try again." 429
  else if strIncludes error.message "timeout" || error.code == some "ECONNRESET" then
    appError "AI analysis is taking longer than expected. Please try again." 408
  else
    appError "AI analysis service is temporarily unavailable. Please try again later." 503

/-- A stored row of the `resumes` table (db/index.js, lines 62–84).  The six
structured-list columns and `upskill_suggestions` are JSONB: the inserted
parameter is `JSON.stringify` of the value and the column semantically holds
that JSON value; node-postgres decodes JSONB back to the structured value on
every read (its documented default type parsing), which is what the model's
`JValue`-typed fields represent.  `uploaded_at` is the creation timestamp. -/
structure Row where
  id : ℤ
  file_name : String
  uploaded_at : ℤ
  name : JValue
  email : JValue
  phone : JValue
  linkedin_url : JValue
  portfolio_url : JValue
  summary : JValue
  work_experience : JValue
  education : JValue
  technical_skills : JValue
  soft_skills : JValue
  projects : JValue
  certifications : JValue
  resume_rating : ℤ
  improvement_areas : String
  upskill_suggestions : JValue

/-- A client-facing response envelope (status plus `success`/`message`). -/
structure ApiResponse where
  status : ℕ
  success : Bool
  message : String

/-- The record shape `getResumeById` builds: the row with its seven JSONB
fields re-parsed by `JSON.parse`. -/
structure ParsedRecord where
  row : Row
  work_experience : JValue
  education : JValue
  technical_skills : JValue
  soft_skills : JValue
  projects : JValue
  certifications : JValue
  upskill_suggestions : JValue

/-- `JSON.parse(v || '[]')` — the per-column parse in the controller
(resumeController.js, lines 74–80 and 189–195).  The JSONB columns arrive
already decoded, so a non-empty array coerces to a joined string and an empty
array coerces to `""`; both throw `SyntaxError` (`none`). -/
def jsonColumnParse (v : JValue) : Option JValue :=
  jsJSONParse (if jsTruthy v then v else .str "[]")

/-- All seven `JSON.parse` statements in controller order; the first throw
aborts. -/
def parseRowJSONFields (r : Row) : Option ParsedRecord := do
  let we ← jsonColumnParse r.work_experience
  let ed ← jsonColumnParse r.education
  let ts ← jsonColumnParse r.technical_skills
  let ss ← jsonColumnParse r.soft_skills
  let pr ← jsonColumnParse r.projects
  let ce ← jsonColumnParse r.certifications
  let us ← jsonColumnParse r.upskill_suggestions
  pure ⟨r, we, ed, ts, ss, pr, ce, us⟩

/-- Response of `getResumeById`, with the parsed record when one is
returned. -/
structure GetResponse where
  status : ℕ
  success : Bool
  message : String
  data : Option ParsedRecord

/-- `getResumeById` (resumeController.js, lines 164–210) for a
route-validated positive-integer id: `404` when no row matches, otherwise
the row with its JSONB fields re-parsed; a parse throw lands in the catch
block, a `500`. -/
def getResumeById (db : List Row) (id : ℤ) : GetResponse :=
  match db.find? (fun r => r.id == id) with
  | none => ⟨404, false, "Resume not found.", none⟩
  | some r =>
    match parseRowJSONFields r with
    | some rec => ⟨200, true, "Resume retrieved successfully", some rec⟩
    | none => ⟨500, false, "An error occurred while fetching the resume.", none⟩

/-- Response of `deleteResume`, with the deleted row's id and file name when
one was deleted. -/
structure DeleteResponse where
  status : ℕ
  success : Bool
  message : String
  deleted : Option (ℤ × String)

/-- `deleteResume` (resumeController.js, lines 217–254) for a route-validated
positive-integer id: `DELETE … WHERE id = $1 RETURNING id, file_name` removes
the matching rows and returns them; an empty result is a `404`. -/
def deleteResume (db : List Row) (id : ℤ) : DeleteResponse × List Row :=
  let rest := db.filter (fun r => !(r.id == id))
  match db.filter (fun r => r.id == id) with
  | [] => (⟨404, false, "Resume not found.", none⟩, rest)
  | r :: _ =>
    (⟨200, true, "Resume \"" ++ r.file_name ++ "\" deleted successfully",
      some (r.id, r.file_name)⟩, rest)

/-- One row of the list endpoint's projection (resumeController.js, lines
129–139): `improvement_summary` is `improvement_areas` truncated to its first
100 characters plus `'...'` when longer than 100 characters. -/
structure SummaryRow where
  id : ℤ
  file_name : String
  uploaded_at : ℤ
  name : JValue
  email : JValue
  resume_rating : ℤ
  improvement_summary : String

/-- The `SELECT` projection of `getAllResumes`, including the SQL `CASE`
truncation of `improvement_areas`. -/
def summarize (r : Row) : SummaryRow :=
  ⟨r.id, r.file_name, r.uploaded_at, r.name, r.email, r.resume_rating,
    if charLen r.improvement_areas > 100 then
      strTakeData 100 r.improvement_areas ++ "..."
    else r.improvement_areas⟩

/-- Response of `getAllResumes`. -/
structure ListResponse where
  status : ℕ
  success : Bool
  message : String
  data : List SummaryRow
  count : ℕ

/-- `getAllResumes` (resumeController.js, lines 127–157): every row as a
summary projection, `ORDER BY uploaded_at DESC` (a stable sort models the
SQL ordering; ties are unspecified by SQL and the claims only require the
descending order), with the row count. -/
def getAllResumes (db : List Row) : ListResponse :=
  let rows := (db.mergeSort (fun a b => decide (b.uploaded_at ≤ a.uploaded_at))).map summarize
  ⟨200, true, "Resumes retrieved successfully", rows, rows.length⟩

/-- Two-decimal rounding, modelling `parseFloat(x.toFixed(2))` on an exact
value (IEEE-754 artifacts of `toFixed` are outside the model; the claims
about this endpoint concern only the empty record set). -/
def round2 (q : ℚ) : ℚ := ((q * 100 + 1/2).floor : ℚ) / 100

/-- The stats payload (resumeController.js, lines 276–285) after the
controller's numeric conversions.  `none` models `NaN`: on an empty table the
SQL aggregates `AVG`/`MAX`/`MIN` are `NULL`, and `parseFloat(null)` /
`parseInt(null)` are `NaN` (JSON-serialized as `null`). -/
structure StatsData where
  status : ℕ
  total_resumes : ℤ
  avg_rating : Option ℚ
  max_rating : Option ℤ
  min_rating : Option ℤ
  high_rated_count : ℤ
  medium_rated_count : ℤ
  low_rated_count : ℤ

/-- `getResumeStats` (resumeController.js, lines 261–300): the SQL aggregate
query over all rows followed by the controller's `parseInt`/`parseFloat`
conversions.  `COUNT` and the `CASE`-filtered counts are never `NULL`;
`AVG`/`MAX`/`MIN` over the empty set are `NULL`, hence `NaN` (`none`) after
conversion. -/
def getResumeStats (db : List Row) : StatsData :=
  let ratings : List ℤ := db.map (fun r => r.resume_rating)
  let avgSql : Option ℚ :=
    if ratings.length = 0 then none
    else some ((ratings.map (fun z => (z : ℚ))).sum / ratings.length)
  ⟨200, ratings.length, avgSql.map round2, ratings.max?, ratings.min?,
    (ratings.filter (fun z => decide (z ≥ 8))).length,
    (ratings.filter (fun z => decide (5 ≤ z ∧ z ≤ 7))).length,
    (ratings.filter (fun z => decide (z < 5))).length⟩

/-- Outcome of `analysisService.analyzeResume` as awaited by the controller:
a sanitized analysis object, or a thrown error. -/
inductive AnalysisOutcome where
  | success (analysis : JObj)
  | failure (error : JsError)

/-- The catch block of `uploadResume` (resumeController.js, lines 90–119):
it sniffs the message for `'PDF parsing failed'` and `'AI analysis failed'`
and the PostgreSQL code `23505`; everything else — including every
`AppError` regardless of its `statusCode` — falls through to a generic
`500`. -/
def catchUploadError (error : JsError) : ApiResponse :=
  if strIncludes error.message "PDF parsing failed" then
    ⟨400, false, "Unable to process PDF file. Please ensure it\x27s a valid, non-encrypted PDF."⟩
  else if strIncludes error.message "AI analysis failed" then
    ⟨500, false, "AI analysis service is temporarily unavailable. Please try again later."⟩
  else if error.code == some "23505" then
    ⟨400, false, "A resume with this name already exists."⟩
  else
    ⟨500, false, "An error occurred while processing your resume. Please try again."⟩

/-- The next id `SERIAL` assigns in the model (claims do not depend on the
exact assignment policy beyond uniqueness). -/
def nextId (db : List Row) : ℤ :=
  (db.map (fun r => r.id)).foldr max 0 + 1

/-- The `INSERT` of `uploadResume` (resumeController.js, lines 42–70): JSONB
columns receive `JSON.stringify` of the sanitized values (`projects` and
`certifications` defaulted with `|| []`), text columns the scalar values.
The sanitizer supplies every key, an integer rating and a truthy
`improvement_areas`. -/
def mkInsertRow (db : List Row) (fileName : String) (now : ℤ) (a : JObj) : Row :=
  let g := fun k => a.lookup k
  let gv := fun k => match g k with | some v => v | none => .null
  ⟨nextId db, fileName, now,
    gv "name", gv "email", gv "phone", gv "linkedin_url", gv "portfolio_url", gv "summary",
    gv "work_experience", gv "education", gv "technical_skills", gv "soft_skills",
    jsOrDefault (g "projects") (.arr []),
    jsOrDefault (g "certifications") (.arr []),
    (match g "resume_rating" with | some (.num q) => jsTrunc q | _ => 0),
    (match gv "improvement_areas" with | .str s => s | v => jsToString v),
    gv "upskill_suggestions"⟩

/-- `uploadResume` (resumeController.js, lines 9–120), after the upstream
request guards (file presence, MIME type, size) have passed, parameterized by
the awaited outcome of `analyzeResume`.  On failure the catch block answers
and nothing is inserted.  On success the row is inserted; the response then
re-parses the returned row's JSONB fields (lines 74–80), and a throw there is
answered by the same catch block — with the row already persisted. -/
def uploadResume (db : List Row) (fileName : String) (now : ℤ)
    (outcome : AnalysisOutcome) : ApiResponse × List Row :=
  match outcome with
  | .failure e => (catchUploadError e, db)
  | .success a =>
    let r := mkInsertRow db fileName now a
    let db' := db ++ [r]
    match parseRowJSONFields r with
    | some _ => (⟨201, true, "Resume uploaded and analyzed successfully!"⟩, db')
    | none =>
      (⟨500, false, "An error occurred while processing your resume. Please try again."⟩, db')

/-- The object literal `validateAndSanitizeAnalysis` returns, given the
results of its four list maps and two cap steps. -/
def sanitizedObj (a : JObj) (we ed pr ce : List JValue) (summary ia : JValue) : JObj :=
  [("name", jsOrDefault (a.lookup "name") .null),
   ("email", jsOrDefault (a.lookup "email") .null),
   ("phone", jsOrDefault (a.lookup "phone") .null),
   ("linkedin_url", jsOrDefault (a.lookup "linkedin_url") .null),
   ("portfolio_url", jsOrDefault (a.lookup "portfolio_url") .null),
   ("summary", summary),
   ("work_experience", .arr we),
   ("education", .arr ed),
   ("technical_skills", .arr (arrOrEmpty (a.lookup "technical_skills"))),
   ("soft_skills", .arr (arrOrEmpty (a.lookup "soft_skills"))),
   ("projects", .arr pr),
   ("certifications", .arr ce),
   ("resume_rating", .num (validateRating (a.lookup "resume_rating"))),
   ("improvement_areas", ia),
   ("upskill_suggestions", .arr (arrOrEmpty (a.lookup "upskill_suggestions")))]

/-- The sanitizer's precondition on structured-list fields: when the field is
an array, none of its entries is `null` (a `null` entry makes the per-item
property access throw). -/
def noNullElems (v : Option JValue) : Prop :=
  ∀ l, v = some (.arr l) → JValue.null ∉ l

/-- The sanitizer's precondition on `summary`/`improvement_areas`: a present
truthy value is a string (the cap step calls `substring` on it when it is
long enough, which throws on non-strings). -/
def stringWhenTruthy (v : Option JValue) : Prop :=
  ∀ x, v = some x → jsTruthy x = true → ∃ s, x = .str s

/-- The sanitizer's output for the empty analysis object: every list field is
`[]`, the rating defaults to 1, `summary` to `null` and `improvement_areas`
to the placeholder. -/
def emptyAnalysis : JObj := (validateAndSanitizeAnalysis [] "resume.pdf").getD []

/-- A concrete stored row used by the C8 witness. -/
def sampleRow (i : ℤ) (t : ℤ) : Row :=
  ⟨i, "a.pdf", t, .null, .null, .null, .null, .null, .null,
    .arr [], .arr [], .arr [], .arr [], .arr [], .arr [], 5, "ok", .arr []⟩

/-- The C9 witness input: a short summary and a short improvement areas. -/
def capsWitnessInput : JObj := [("summary", .str "hello"), ("improvement_areas", .str "x")]

/-- The sanitizer output for the C9 witness input. -/
def capsWitnessOutput : JObj := (validateAndSanitizeAnalysis capsWitnessInput "resume.pdf").getD []

/-! ### Helper lemmas -/

/-- `Rat.floor` agrees with the characterization by bounds. -/
theorem ratFloorEq (q : ℚ) (z : ℤ) (h₁ : (z : ℚ) ≤ q) (h₂ : q < z + 1) : q.floor = z := by
  have ha : z ≤ q.floor := Rat.le_floor.mpr h₁
  have hb : ¬ (z + 1 ≤ q.floor) := by
    intro hc
    have := Rat.le_floor.mp hc
    push_cast at this
    linarith
  omega

/-- Truncation of an integer is itself. -/
theorem jsTrunc_intCast (k : ℤ) : jsTrunc (k : ℚ) = k := by
  unfold jsTrunc
  by_cases h : (0 : ℚ) ≤ (k : ℚ)
  · rw [if_pos h, ratFloorEq _ k le_rfl (by linarith)]
  · rw [if_neg h]
    have : (-(k : ℚ)) = ((-k : ℤ) : ℚ) := by push_cast; ring
    rw [this, ratFloorEq _ (-k) le_rfl (by push_cast; linarith)]
    omega

/-- A rational below 1 truncates below 1. -/
theorem jsTrunc_lt_one (q : ℚ) (h : q < 1) : jsTrunc q < 1 := by
  unfold jsTrunc
  by_cases h0 : (0 : ℚ) ≤ q
  · rw [if_pos h0]
    have : ¬ ((1 : ℤ) ≤ q.floor) := by
      intro hc
      have := Rat.le_floor.mp hc
      push_cast at this
      linarith
    omega
  · rw [if_neg h0]
    have : (0 : ℤ) ≤ (-q).floor := Rat.le_floor.mpr (by push_cast; linarith)
    omega

/-- A rational above an integer bound truncates at or above it. -/
theorem le_jsTrunc_of_le (q : ℚ) (z : ℤ) (hz : 0 ≤ z) (h : (z : ℚ) ≤ q) : z ≤ jsTrunc q := by
  have h0 : (0 : ℚ) ≤ q := le_trans (by exact_mod_cast hz) h
  unfold jsTrunc
  rw [if_pos h0]
  exact Rat.le_floor.mpr h

/-- The sanitized rating always lies in `[1, 10]`. -/
theorem validateRating_bounds (v : Option JValue) :
    1 ≤ validateRating v ∧ validateRating v ≤ 10 := by
  rcases h : jsParseInt v with _ | n
  · simp [validateRating, h]
  · simp only [validateRating, h]
    by_cases h1 : n < 1
    · simp [h1]
    · by_cases h2 : n > 10
      · simp [h1, h2]
      · simp [h1, h2]
        omega

/-- An already-clamped integer rating is a fixed point of `validateRating`. -/
theorem validateRating_intCast (k : ℤ) (h1 : 1 ≤ k) (h2 : k ≤ 10) :
    validateRating (some (.num (k : ℚ))) = k := by
  simp only [validateRating, jsParseInt, jsTrunc_intCast]
  rw [if_neg (by omega : ¬ k < 1), if_neg (by omega : ¬ k > 10)]

/-! ### Claim theorems -/

/-- C2: for every rating value, the sanitized `resume_rating` is an integer
in `[1, 10]`: parsing truncates to the integer part, any parse failure
(`NaN`) or value below 1 yields 1, any value above 10 yields 10; the inputs
`0`, `11`, `"abc"`, `null` and `7.9` sanitize to `1`, `10`, `1`, `1` and `7`
respectively. -/
theorem validateRating_clamps :
    (∀ v : Option JValue, 1 ≤ validateRating v ∧ validateRating v ≤ 10) ∧
    (∀ v : Option JValue, jsParseInt v = none → validateRating v = 1) ∧
    (∀ q : ℚ, validateRating (some (.num q)) =
      if jsTrunc q < 1 then 1 else if jsTrunc q > 10 then 10 else jsTrunc q) ∧
    (∀ q : ℚ, q < 1 → validateRating (some (.num q)) = 1) ∧
    (∀ q : ℚ, 10 < q → validateRating (some (.num q)) = 10) ∧
    validateRating (some (.num 0)) = 1 ∧
    validateRating (some (.num 11)) = 10 ∧
    validateRating (some (.str "abc")) = 1 ∧
    validateRating (some .null) = 1 ∧
    validateRating (some (.num (79 / 10))) = 7 := by
  have h79 : jsTrunc (79 / 10 : ℚ) = 7 := by
    unfold jsTrunc
    rw [if_pos (by norm_num), ratFloorEq _ 7 (by norm_num) (by norm_num)]
  refine ⟨validateRating_bounds, ?_, ?_, ?_, ?_, by decide, by decide, by decide, by decide, ?_⟩
  · intro v h
    simp [validateRating, h]
  · intro q
    simp [validateRating, jsParseInt]
  · intro q hq
    simp only [validateRating, jsParseInt]
    rw [if_pos (jsTrunc_lt_one q hq)]
  · intro q hq
    have h10 : 10 ≤ jsTrunc q := le_jsTrunc_of_le q 10 (by norm_num) (le_of_lt hq)
    simp only [validateRating, jsParseInt]
    rw [if_neg (by omega)]
    by_cases h' : jsTrunc q > 10
    · rw [if_pos h']
    · rw [if_neg h']
      omega
  · simp only [validateRating, jsParseInt, h79]
    norm_num

/-- Witness for C2: the theorem applied at concrete inputs (a boolean rating
is a parse failure; `-3` is below 1; `12` is above 10). -/
theorem validateRating_clamps_witness :
    jsParseInt (some (.bool true)) = none ∧
    validateRating (some (.bool true)) = 1 ∧
    validateRating (some (.num (-3))) = 1 ∧
    validateRating (some (.num 12)) = 10 :=
  ⟨rfl, validateRating_clamps.2.1 (some (.bool true)) rfl,
    validateRating_clamps.2.2.2.1 (-3) (by decide),
    validateRating_clamps.2.2.2.2.1 12 (by decide)⟩

/-- C3 (code bug): when the AI invocation times out, the service layer
classifies the failure as an `AppError` with status 408, but the upload
endpoint's catch block ignores `statusCode` and answers a generic 500; no
record is created (the insert is never reached, so the table is unchanged). -/
theorem ai_timeout_responds_500_no_insert :
    ∀ (db : List Row) (fileName : String) (now : ℤ),
      (analyzeWithAICatch (plainError "Request timeout")).statusCode = some 408 ∧
      uploadResume db fileName now (.failure (analyzeWithAICatch (plainError "Request timeout"))) =
        (⟨500, false, "An error occurred while processing your resume. Please try again."⟩, db) :=
  fun _ _ _ => ⟨rfl, rfl⟩

/-- C4 (code bug): extracted text of 10 characters is rejected by
`extractTextFromPDF` with an `AppError` carrying status 400
(`InsufficientContent`), but the upload endpoint's catch block answers a
generic 500; no record is created. -/
theorem insufficient_content_responds_500_no_insert :
    extractTextFromPDF "short text" =
      .error (appError "PDF contains very little text content. Please ensure the PDF is a proper resume document." 400) ∧
    (appError "PDF contains very little text content. Please ensure the PDF is a proper resume document." 400).statusCode = some 400 ∧
    ∀ (db : List Row) (fileName : String) (now : ℤ),
      uploadResume db fileName now
          (.failure (appError "PDF contains very little text content. Please ensure the PDF is a proper resume document." 400)) =
        (⟨500, false, "An error occurred while processing your resume. Please try again."⟩, db) :=
  ⟨rfl, rfl, fun _ _ _ => rfl⟩

/-- C5 counterexample: on the empty record set the stats payload's
`avg_rating` is `NaN` (`none`, serialized as JSON `null`), not `0` as the
claim states. -/
theorem stats_empty_avg_is_nan_not_zero :
    (getResumeStats []).avg_rating = none ∧ (getResumeStats []).avg_rating ≠ some 0 := by
  decide

/-- C5 amended: the stats endpoint always answers 200 and, on the empty
record set, reports `total_resumes = 0` with `avg_rating` (and max/min)
`NaN` — serialized as `null` — rather than 0; no error is raised. -/
theorem stats_empty_zero_total_nan_avg :
    (∀ db : List Row, (getResumeStats db).status = 200) ∧
    getResumeStats [] = ⟨200, 0, none, none, none, 0, 0, 0⟩ :=
  ⟨fun _ => rfl, rfl⟩

/-- C7: for a positive id absent from storage, both `GET /api/resumes/:id`
and `DELETE /api/resumes/:id` answer
`404 { success: false, message: "Resume not found." }`, never a 500; the
delete leaves the table unchanged, so any repetition answers the same. -/
theorem absent_id_get_delete_404 :
    ∀ (db : List Row) (id : ℤ), 0 < id → (∀ r ∈ db, r.id ≠ id) →
      getResumeById db id = ⟨404, false, "Resume not found.", none⟩ ∧
      deleteResume db id = (⟨404, false, "Resume not found.", none⟩, db) ∧
      deleteResume (deleteResume db id).2 id = (⟨404, false, "Resume not found.", none⟩, db) := by
  intro db id _ habs
  have hfind : db.find? (fun r => r.id == id) = none := by
    rw [List.find?_eq_none]
    intro r hr
    simp [habs r hr]
  have hfilter : db.filter (fun r => r.id == id) = [] := by
    rw [List.filter_eq_nil_iff]
    intro r hr
    simp [habs r hr]
  have hrest : db.filter (fun r => !(r.id == id)) = db := by
    rw [List.filter_eq_self]
    intro r hr
    simp [habs r hr]
  refine ⟨?_, ?_, ?_⟩
  · simp [getResumeById, hfind]
  · simp [deleteResume, hfilter, hrest]
  · simp [deleteResume, hfilter, hrest]

/-- Witness for C7: the theorem applied to the empty table and id 999999. -/
theorem absent_id_get_delete_404_witness :
    getResumeById [] 999999 = ⟨404, false, "Resume not found.", none⟩ ∧
    deleteResume [] 999999 = (⟨404, false, "Resume not found.", none⟩, []) ∧
    deleteResume (deleteResume [] 999999).2 999999 = (⟨404, false, "Resume not found.", none⟩, []) :=
  absent_id_get_delete_404 [] 999999 (by decide) (by simp)

/-- C6 (code bug): a successfully analyzed upload inserts its row, but the
JSONB columns come back from the driver already decoded, so the controller's
`JSON.parse(value || '[]')` coerces the array to a string and throws: the
upload response itself is a 500 (with the row persisted), and retrieving the
new id answers 500 instead of the stored record — the encode/decode
round-trip never completes.  The last conjunct isolates the root cause:
re-parsing a decoded empty array fails. -/
theorem stored_record_retrieval_throws_500 :
    validateAndSanitizeAnalysis [] "resume.pdf" = some emptyAnalysis ∧
    ((uploadResume [] "resume.pdf" 0 (.success emptyAnalysis)).2).length = 1 ∧
    ((uploadResume [] "resume.pdf" 0 (.success emptyAnalysis)).2).map (fun r => r.id) = [1] ∧
    (uploadResume [] "resume.pdf" 0 (.success emptyAnalysis)).1.status = 500 ∧
    getResumeById (uploadResume [] "resume.pdf" 0 (.success emptyAnalysis)).2 1 =
      ⟨500, false, "An error occurred while fetching the resume.", none⟩ ∧
    jsonColumnParse (.arr []) = none :=
  ⟨rfl, rfl, rfl, rfl, rfl, rfl⟩

/-- C8: the list endpoint answers 200 with every stored record as a summary
projection (id, file name, upload timestamp, name, email, rating, and the
improvement-areas preview truncated to its first 100 characters plus an
ellipsis when longer than 100), ordered by `uploaded_at` descending, together
with the count of returned rows; with 3 stored records the count is 3. -/
theorem list_endpoint_spec :
    ∀ db : List Row,
      (getAllResumes db).status = 200 ∧
      (getAllResumes db).count = db.length ∧
      (getAllResumes db).data.length = db.length ∧
      List.Pairwise (fun a b : SummaryRow => b.uploaded_at ≤ a.uploaded_at) (getAllResumes db).data ∧
      (getAllResumes db).data.Perm (db.map summarize) ∧
      (∀ r : Row, summarize r =
        ⟨r.id, r.file_name, r.uploaded_at, r.name, r.email, r.resume_rating,
          if charLen r.improvement_areas > 100 then
            strTakeData 100 r.improvement_areas ++ "..."
          else r.improvement_areas⟩) ∧
      (db.length = 3 → (getAllResumes db).count = 3) := by
  intro db
  have hperm : (db.mergeSort (fun a b => decide (b.uploaded_at ≤ a.uploaded_at))).Perm db :=
    List.mergeSort_perm db _
  have hlen : (getAllResumes db).data.length = db.length := by
    simp only [getAllResumes, List.length_map]
    exact hperm.length_eq
  refine ⟨rfl, ?_, hlen, ?_, ?_, fun r => rfl, ?_⟩
  · simp only [getAllResumes]
    simp [hperm.length_eq]
  · have hsorted :
        List.Pairwise (fun a b : Row => (fun a b => decide (b.uploaded_at ≤ a.uploaded_at)) a b = true)
          (db.mergeSort (fun a b => decide (b.uploaded_at ≤ a.uploaded_at))) := by
      apply List.sorted_mergeSort
      · intro a b c hab hbc
        simp only [decide_eq_true_eq] at *
        omega
      · intro a b
        simp only [Bool.or_eq_true, decide_eq_true_eq]
        omega
    simp only [getAllResumes]
    rw [List.pairwise_map]
    refine hsorted.imp ?_
    intro a b h
    simp only [decide_eq_true_eq] at h
    simpa [summarize] using h
  · simpa only [getAllResumes] using hperm.map summarize
  · intro h
    simp only [getAllResumes, List.length_map]
    rw [hperm.length_eq, h]

/-- Witness for C8: the theorem applied to a table of three rows. -/
theorem list_endpoint_spec_witness :
    (getAllResumes [sampleRow 1 30, sampleRow 2 10, sampleRow 3 20]).count = 3 :=
  (list_endpoint_spec [sampleRow 1 30, sampleRow 2 10, sampleRow 3 20]).2.2.2.2.2.2 rfl

/-! ### Sanitizer lemmas -/

/-- String append acts on the character lists. -/
theorem strData_append (s t : String) : (s ++ t).data = s.data ++ t.data := by
  cases s; cases t; rfl

/-- Character count of an append. -/
theorem charLen_append (s t : String) : charLen (s ++ t) = charLen s + charLen t := by
  simp [charLen, strData_append]

/-- Character count of a prefix. -/
theorem charLen_strTakeData (n : ℕ) (s : String) :
    charLen (strTakeData n s) = min n (charLen s) := by
  simp [charLen, strTakeData]

/-- A string is nonempty iff its character list is. -/
theorem str_ne_empty_iff (s : String) : s ≠ "" ↔ s.data ≠ [] := by
  cases s
  simp [String.ext_iff]

/-- Truthiness of a string value. -/
theorem jsTruthy_str (s : String) : jsTruthy (.str s) = true ↔ s ≠ "" := by
  simp [jsTruthy]

/-- `x || d` keeps a truthy `x`. -/
theorem jsOrDefault_truthy (x d : JValue) (hx : jsTruthy x = true) :
    jsOrDefault (some x) d = x := by
  simp [jsOrDefault, hx]

/-- `x || d` falls back on a falsy `x`. -/
theorem jsOrDefault_falsy (x d : JValue) (hx : jsTruthy x = false) :
    jsOrDefault (some x) d = d := by
  simp [jsOrDefault, hx]

/-- `d || d` is `d`, truthy or not. -/
theorem jsOrDefault_self (d : JValue) : jsOrDefault (some d) d = d := by
  show (if jsTruthy d = true then d else d) = d
  split <;> rfl

/-- Re-applying `|| d` to its own result changes nothing. -/
theorem jsOrDefault_fix (v : Option JValue) (d : JValue) :
    jsOrDefault (some (jsOrDefault v d)) d = jsOrDefault v d := by
  cases v with
  | none => exact jsOrDefault_self d
  | some x =>
    by_cases hx : jsTruthy x = true
    · rw [jsOrDefault_truthy x d hx, jsOrDefault_truthy x d hx]
    · rw [jsOrDefault_falsy x d (by simpa using hx)]
      exact jsOrDefault_self d

/-- A falsy `x || d` is the default. -/
theorem jsOrDefault_eq_default_of_falsy (v : Option JValue) (d : JValue)
    (h : jsTruthy (jsOrDefault v d) = false) : jsOrDefault v d = d := by
  cases v with
  | none => rfl
  | some x =>
    by_cases hx : jsTruthy x = true
    · rw [jsOrDefault_truthy x d hx] at h
      rw [jsOrDefault_truthy x d hx]
      rw [hx] at h
      cases h
    · exact jsOrDefault_falsy x d (by simpa using hx)

/-- A map over elements none of which throws succeeds. -/
theorem mapThrow_some_of (f : JValue → Option JValue) (l : List JValue)
    (h : ∀ x ∈ l, (f x).isSome = true) : ∃ l', mapThrow f l = some l' := by
  induction l with
  | nil => exact ⟨[], rfl⟩
  | cons x xs ih =>
    obtain ⟨y, hy⟩ := Option.isSome_iff_exists.mp (h x (by simp))
    obtain ⟨ys, hys⟩ := ih (fun z hz => h z (by simp [hz]))
    exact ⟨y :: ys, by simp [mapThrow, hy, hys]⟩

/-- If the element function fixes each of its own outputs, the map fixes its
own output. -/
theorem mapThrow_fix (f : JValue → Option JValue)
    (hf : ∀ x y, f x = some y → f y = some y) :
    ∀ l l', mapThrow f l = some l' → mapThrow f l' = some l' := by
  intro l
  induction l with
  | nil =>
    intro l' h
    have h' : some ([] : List JValue) = some l' := h
    cases h'
    rfl
  | cons x xs ih =>
    intro l' h
    cases hfx : f x with
    | none => simp [mapThrow, hfx] at h
    | some y =>
      cases hm : mapThrow f xs with
      | none => simp [mapThrow, hfx, hm] at h
      | some ys =>
        simp only [mapThrow, hfx, hm] at h
        have h' : some (y :: ys) = some l' := h
        cases h'
        have h1 := hf x y hfx
        have h2 := ih ys hm
        simp [mapThrow, h1, h2]

/-- The length test on a string value compares its character count. -/
theorem jsLengthGT_str (s : String) (cap : ℚ) :
    jsLengthGT (.str s) cap = decide (cap < (charLen s : ℚ)) := by
  simp [jsLengthGT, jsProp, jsGTnum]

/-- `capField` passes `null` through. -/
theorem capField_null (cap : ℚ) (keep : ℕ) : capField .null cap keep = some .null := by
  simp [capField, jsTruthy]

/-- `capField` passes a short-enough string through. -/
theorem capField_str_le (s : String) (cap : ℚ) (keep : ℕ)
    (h : (charLen s : ℚ) ≤ cap) : capField (.str s) cap keep = some (.str s) := by
  have : jsLengthGT (.str s) cap = false := by
    rw [jsLengthGT_str]
    simpa using h
  simp [capField, this]

/-- `capField` truncates a too-long string to `keep` characters plus the
ellipsis. -/
theorem capField_str_gt (s : String) (cap : ℚ) (keep : ℕ) (h0 : 0 ≤ cap)
    (h : cap < (charLen s : ℚ)) :
    capField (.str s) cap keep = some (.str (strTakeData keep s ++ "...")) := by
  have hlen : jsLengthGT (.str s) cap = true := by
    rw [jsLengthGT_str]
    simpa using h
  have hne : s ≠ "" := by
    rw [str_ne_empty_iff]
    intro hd
    rw [show charLen s = 0 from by simp [charLen, hd]] at h
    push_cast at h
    linarith
  have htr : jsTruthy (.str s) = true := (jsTruthy_str s).mpr hne
  simp [capField, hlen, htr, capTrunc]

/-- `capField` on a string always succeeds. -/
theorem capField_str_isSome (s : String) (cap : ℚ) (keep : ℕ) (h0 : 0 ≤ cap) :
    ∃ u, capField (.str s) cap keep = some u := by
  by_cases h : (charLen s : ℚ) ≤ cap
  · exact ⟨.str s, capField_str_le s cap keep h⟩
  · exact ⟨_, capField_str_gt s cap keep h0 (by linarith)⟩

/-- The character count of a truncated-with-ellipsis string. -/
theorem charLen_trunc (s : String) (keep : ℕ) :
    charLen (strTakeData keep s ++ "...") = min keep (charLen s) + 3 := by
  rw [charLen_append, charLen_strTakeData]
  rfl

/-- A truncated-with-ellipsis string is nonempty. -/
theorem trunc_ne_empty (s : String) (keep : ℕ) : strTakeData keep s ++ "..." ≠ "" := by
  intro hemp
  have htr := charLen_trunc s keep
  rw [hemp] at htr
  simp [charLen] at htr

/-- What a successful `capField` can look like: either the guard failed and
the value passed through, or the value was a string that got truncated. -/
theorem capField_some_inv (w s : JValue) (cap : ℚ) (keep : ℕ)
    (h : capField w cap keep = some s) :
    (s = w ∧ (jsTruthy w && jsLengthGT w cap) = false) ∨
    (∃ t, w = .str t ∧ (jsTruthy w && jsLengthGT w cap) = true ∧
      s = .str (strTakeData keep t ++ "...")) := by
  rw [capField] at h
  by_cases hg : (jsTruthy w && jsLengthGT w cap) = true
  · rw [if_pos hg] at h
    right
    rcases w with _ | b | q | t | l | fs
    all_goals simp [capTrunc] at h
    all_goals simp_all
  · rw [if_neg hg] at h
    left
    cases h
    exact ⟨rfl, by simpa using hg⟩

/-- Re-applying the defaulting-and-cap pipeline of `summary` /
`improvement_areas` to its own output changes nothing (with `keep + 3 ≤ cap`,
as in both uses: 997/1000 and 1997/2000). -/
theorem capField_fix (v : Option JValue) (d : JValue) (cap : ℚ) (keep : ℕ)
    (hk : (keep : ℚ) + 3 ≤ cap) (s : JValue)
    (h : capField (jsOrDefault v d) cap keep = some s) :
    capField (jsOrDefault (some s) d) cap keep = some s := by
  rcases capField_some_inv _ _ _ _ h with ⟨rfl, hg⟩ | ⟨t, hw, _, rfl⟩
  · by_cases ht : jsTruthy (jsOrDefault v d) = true
    · rw [jsOrDefault_truthy _ d ht, capField, if_neg (by simp [hg])]
    · rw [jsOrDefault_eq_default_of_falsy v d (by simpa using ht)] at hg ⊢
      rw [jsOrDefault_self, capField, if_neg (by simp [hg])]
  · have hlen : (charLen (strTakeData keep t ++ "...") : ℚ) ≤ cap := by
      rw [charLen_trunc]
      have hmin : (min keep (charLen t) : ℕ) ≤ keep := Nat.min_le_left _ _
      have hc : ((min keep (charLen t) + 3 : ℕ) : ℚ) ≤ (keep : ℚ) + 3 := by
        push_cast
        exact_mod_cast add_le_add_right (Nat.cast_le.mpr hmin) 3
      push_cast at hc ⊢
      linarith
    rw [jsOrDefault_truthy _ d ((jsTruthy_str _).mpr (trunc_ne_empty t keep))]
    exact capField_str_le _ cap keep hlen

/-- `descList` always produces an array. -/
theorem descList_arr (w : Option JValue) : ∃ dl, descList w = .arr dl := by
  rcases w with _ | v
  · exact ⟨_, rfl⟩
  rcases v with _ | b | q | s | l | fs
  · exact ⟨_, rfl⟩
  · cases b
    · exact ⟨_, rfl⟩
    · exact ⟨_, rfl⟩
  · have hd : descList (some (.num q)) =
        if jsTruthy (.num q) = true then .arr [.num q] else .arr [.str "No description provided"] := rfl
    rw [hd]
    split
    · exact ⟨_, rfl⟩
    · exact ⟨_, rfl⟩
  · have hd : descList (some (.str s)) =
        if jsTruthy (.str s) = true then .arr [.str s] else .arr [.str "No description provided"] := rfl
    rw [hd]
    split
    · exact ⟨_, rfl⟩
    · exact ⟨_, rfl⟩
  · exact ⟨l, rfl⟩
  · exact ⟨_, rfl⟩

/-- Re-normalizing a normalized `description` changes nothing. -/
theorem descList_idem (w : Option JValue) : descList (some (descList w)) = descList w := by
  obtain ⟨dl, h⟩ := descList_arr w
  rw [h]
  rfl

/-- `techList` always produces an array. -/
theorem techList_arr (w : Option JValue) : ∃ tl, techList w = .arr tl := by
  rcases w with _ | v
  · exact ⟨_, rfl⟩
  rcases v with _ | b | q | s | l | fs
  · exact ⟨_, rfl⟩
  · exact ⟨_, rfl⟩
  · exact ⟨_, rfl⟩
  · exact ⟨_, rfl⟩
  · exact ⟨l, rfl⟩
  · exact ⟨_, rfl⟩

/-- Re-normalizing normalized `technologies` changes nothing. -/
theorem techList_idem (w : Option JValue) : techList (some (techList w)) = techList w := by
  obtain ⟨tl, h⟩ := techList_arr w
  rw [h]
  rfl

/-- The output shape of `sanitizeWorkItem` on a non-`null` entry. -/
theorem sanitizeWorkItem_shape (x : JValue) (hx : x ≠ .null) :
    sanitizeWorkItem x = some (.obj [
      ("role", jsOrDefault (jsProp x "role") (.str "Not specified")),
      ("company", jsOrDefault (jsProp x "company") (.str "Not specified")),
      ("duration", jsOrDefault (jsProp x "duration") (.str "Not specified")),
      ("description", descList (jsProp x "description"))]) := by
  rcases x with _ | b | q | s | l | fs
  · exact absurd rfl hx
  all_goals rfl

/-- `sanitizeWorkItem` succeeds on a non-`null` entry. -/
theorem sanitizeWorkItem_isSome (x : JValue) (hx : x ≠ .null) :
    (sanitizeWorkItem x).isSome = true := by
  rw [sanitizeWorkItem_shape x hx]
  rfl

/-- `sanitizeWorkItem` fixes each of its own outputs. -/
theorem sanitizeWorkItem_fix (x y : JValue) (h : sanitizeWorkItem x = some y) :
    sanitizeWorkItem y = some y := by
  have hx : x ≠ .null := by
    intro he
    subst he
    exact Option.noConfusion h
  rw [sanitizeWorkItem_shape x hx] at h
  cases h
  rw [sanitizeWorkItem_shape _ (by intro he; cases he)]
  simp [jsProp, List.lookup, jsOrDefault_fix, descList_idem]

/-- The output shape of `sanitizeEduItem` on a non-`null` entry. -/
theorem sanitizeEduItem_shape (x : JValue) (hx : x ≠ .null) :
    sanitizeEduItem x = some (.obj [
      ("degree", jsOrDefault (jsProp x "degree") (.str "Not specified")),
      ("institution", jsOrDefault (jsProp x "institution") (.str "Not specified")),
      ("graduation_year", jsOrDefault (jsProp x "graduation_year") (.str "Not specified"))]) := by
  rcases x with _ | b | q | s | l | fs
  · exact absurd rfl hx
  all_goals rfl

/-- `sanitizeEduItem` succeeds on a non-`null` entry. -/
theorem sanitizeEduItem_isSome (x : JValue) (hx : x ≠ .null) :
    (sanitizeEduItem x).isSome = true := by
  rw [sanitizeEduItem_shape x hx]
  rfl

/-- `sanitizeEduItem` fixes each of its own outputs. -/
theorem sanitizeEduItem_fix (x y : JValue) (h : sanitizeEduItem x = some y) :
    sanitizeEduItem y = some y := by
  have hx : x ≠ .null := by
    intro he
    subst he
    exact Option.noConfusion h
  rw [sanitizeEduItem_shape x hx] at h
  cases h
  rw [sanitizeEduItem_shape _ (by intro he; cases he)]
  simp [jsProp, List.lookup, jsOrDefault_fix]

/-- The output shape of `sanitizeProjectItem` on a non-`null` entry. -/
theorem sanitizeProjectItem_shape (x : JValue) (hx : x ≠ .null) :
    sanitizeProjectItem x = some (.obj [
      ("name", jsOrDefault (jsProp x "name") (.str "Unnamed Project")),
      ("description", jsOrDefault (jsProp x "description") (.str "No description provided")),
      ("technologies", techList (jsProp x "technologies"))]) := by
  rcases x with _ | b | q | s | l | fs
  · exact absurd rfl hx
  all_goals rfl

/-- `sanitizeProjectItem` succeeds on a non-`null` entry. -/
theorem sanitizeProjectItem_isSome (x : JValue) (hx : x ≠ .null) :
    (sanitizeProjectItem x).isSome = true := by
  rw [sanitizeProjectItem_shape x hx]
  rfl

/-- `sanitizeProjectItem` fixes each of its own outputs. -/
theorem sanitizeProjectItem_fix (x y : JValue) (h : sanitizeProjectItem x = some y) :
    sanitizeProjectItem y = some y := by
  have hx : x ≠ .null := by
    intro he
    subst he
    exact Option.noConfusion h
  rw [sanitizeProjectItem_shape x hx] at h
  cases h
  rw [sanitizeProjectItem_shape _ (by intro he; cases he)]
  simp [jsProp, List.lookup, jsOrDefault_fix, techList_idem]

/-- The output shape of `sanitizeCertItem` on a non-`null` entry. -/
theorem sanitizeCertItem_shape (x : JValue) (hx : x ≠ .null) :
    sanitizeCertItem x = some (.obj [
      ("name", jsOrDefault (jsProp x "name") (.str "Not specified")),
      ("issuer", jsOrDefault (jsProp x "issuer") (.str "Not specified")),
      ("year", jsOrDefault (jsProp x "year") (.str "Not specified"))]) := by
  rcases x with _ | b | q | s | l | fs
  · exact absurd rfl hx
  all_goals rfl

/-- `sanitizeCertItem` succeeds on a non-`null` entry. -/
theorem sanitizeCertItem_isSome (x : JValue) (hx : x ≠ .null) :
    (sanitizeCertItem x).isSome = true := by
  rw [sanitizeCertItem_shape x hx]
  rfl

/-- `sanitizeCertItem` fixes each of its own outputs. -/
theorem sanitizeCertItem_fix (x y : JValue) (h : sanitizeCertItem x = some y) :
    sanitizeCertItem y = some y := by
  have hx : x ≠ .null := by
    intro he
    subst he
    exact Option.noConfusion h
  rw [sanitizeCertItem_shape x hx] at h
  cases h
  rw [sanitizeCertItem_shape _ (by intro he; cases he)]
  simp [jsProp, List.lookup, jsOrDefault_fix]

/-- `validateAndSanitizeAnalysis`, assembled from successful stages. -/
theorem sanitize_eq (a : JObj) (f : String) (we ed pr ce : List JValue) (summary ia : JValue)
    (hwe : mapThrow sanitizeWorkItem (arrOrEmpty (a.lookup "work_experience")) = some we)
    (hed : mapThrow sanitizeEduItem (arrOrEmpty (a.lookup "education")) = some ed)
    (hpr : mapThrow sanitizeProjectItem (arrOrEmpty (a.lookup "projects")) = some pr)
    (hce : mapThrow sanitizeCertItem (arrOrEmpty (a.lookup "certifications")) = some ce)
    (hsum : capField (jsOrDefault (a.lookup "summary") .null) 1000 997 = some summary)
    (hia : capField (jsOrDefault (a.lookup "improvement_areas")
        (.str "No specific improvement areas identified.")) 2000 1997 = some ia) :
    validateAndSanitizeAnalysis a f = some (sanitizedObj a we ed pr ce summary ia) := by
  simp only [validateAndSanitizeAnalysis]
  rw [hwe, hed, hpr, hce, hsum, hia]
  rfl

/-- A successful `validateAndSanitizeAnalysis` decomposes into its stages. -/
theorem sanitize_inv (a : JObj) (f : String) (y : JObj)
    (h : validateAndSanitizeAnalysis a f = some y) :
    ∃ we ed pr ce summary ia,
      mapThrow sanitizeWorkItem (arrOrEmpty (a.lookup "work_experience")) = some we ∧
      mapThrow sanitizeEduItem (arrOrEmpty (a.lookup "education")) = some ed ∧
      mapThrow sanitizeProjectItem (arrOrEmpty (a.lookup "projects")) = some pr ∧
      mapThrow sanitizeCertItem (arrOrEmpty (a.lookup "certifications")) = some ce ∧
      capField (jsOrDefault (a.lookup "summary") .null) 1000 997 = some summary ∧
      capField (jsOrDefault (a.lookup "improvement_areas")
        (.str "No specific improvement areas identified.")) 2000 1997 = some ia ∧
      y = sanitizedObj a we ed pr ce summary ia := by
  simp only [validateAndSanitizeAnalysis] at h
  cases hwe : mapThrow sanitizeWorkItem (arrOrEmpty (a.lookup "work_experience")) with
  | none => rw [hwe] at h; exact Option.noConfusion h
  | some we =>
  rw [hwe] at h
  cases hed : mapThrow sanitizeEduItem (arrOrEmpty (a.lookup "education")) with
  | none => rw [hed] at h; exact Option.noConfusion h
  | some ed =>
  rw [hed] at h
  cases hpr : mapThrow sanitizeProjectItem (arrOrEmpty (a.lookup "projects")) with
  | none => rw [hpr] at h; exact Option.noConfusion h
  | some pr =>
  rw [hpr] at h
  cases hce : mapThrow sanitizeCertItem (arrOrEmpty (a.lookup "certifications")) with
  | none => rw [hce] at h; exact Option.noConfusion h
  | some ce =>
  rw [hce] at h
  cases hsum : capField (jsOrDefault (a.lookup "summary") .null) 1000 997 with
  | none => rw [hsum] at h; exact Option.noConfusion h
  | some summary =>
  rw [hsum] at h
  cases hia : capField (jsOrDefault (a.lookup "improvement_areas")
      (.str "No specific improvement areas identified.")) 2000 1997 with
  | none => rw [hia] at h; exact Option.noConfusion h
  | some ia =>
  rw [hia] at h
  have h' : some (sanitizedObj a we ed pr ce summary ia) = some y := h
  cases h'
  exact ⟨we, ed, pr, ce, summary, ia, rfl, rfl, rfl, rfl, rfl, rfl, rfl⟩

/-- A rating that has been sanitized once is a fixed point. -/
theorem validateRating_fix (v : Option JValue) :
    validateRating (some (.num (validateRating v : ℚ))) = validateRating v :=
  validateRating_intCast _ (validateRating_bounds v).1 (validateRating_bounds v).2

/-- C10: the sanitizer is idempotent — applying
`validateAndSanitizeAnalysis` to its own output returns that output
unchanged. -/
theorem sanitizer_idempotent :
    ∀ (a : JObj) (fileName : String) (y : JObj),
      validateAndSanitizeAnalysis a fileName = some y →
      validateAndSanitizeAnalysis y fileName = some y := by
  intro a f y h
  obtain ⟨we, ed, pr, ce, summary, ia, hwe, hed, hpr, hce, hsum, hia, rfl⟩ :=
    sanitize_inv a f y h
  have hwe2 : mapThrow sanitizeWorkItem
      (arrOrEmpty ((sanitizedObj a we ed pr ce summary ia).lookup "work_experience")) = some we := by
    have hl : (sanitizedObj a we ed pr ce summary ia).lookup "work_experience" = some (.arr we) := rfl
    rw [hl]
    exact mapThrow_fix _ sanitizeWorkItem_fix _ _ hwe
  have hed2 : mapThrow sanitizeEduItem
      (arrOrEmpty ((sanitizedObj a we ed pr ce summary ia).lookup "education")) = some ed := by
    have hl : (sanitizedObj a we ed pr ce summary ia).lookup "education" = some (.arr ed) := rfl
    rw [hl]
    exact mapThrow_fix _ sanitizeEduItem_fix _ _ hed
  have hpr2 : mapThrow sanitizeProjectItem
      (arrOrEmpty ((sanitizedObj a we ed pr ce summary ia).lookup "projects")) = some pr := by
    have hl : (sanitizedObj a we ed pr ce summary ia).lookup "projects" = some (.arr pr) := rfl
    rw [hl]
    exact mapThrow_fix _ sanitizeProjectItem_fix _ _ hpr
  have hce2 : mapThrow sanitizeCertItem
      (arrOrEmpty ((sanitizedObj a we ed pr ce summary ia).lookup "certifications")) = some ce := by
    have hl : (sanitizedObj a we ed pr ce summary ia).lookup "certifications" = some (.arr ce) := rfl
    rw [hl]
    exact mapThrow_fix _ sanitizeCertItem_fix _ _ hce
  have hsum2 : capField
      (jsOrDefault ((sanitizedObj a we ed pr ce summary ia).lookup "summary") .null)
      1000 997 = some summary := by
    have hl : (sanitizedObj a we ed pr ce summary ia).lookup "summary" = some summary := rfl
    rw [hl]
    exact capField_fix _ _ _ _ (by norm_num) _ hsum
  have hia2 : capField
      (jsOrDefault ((sanitizedObj a we ed pr ce summary ia).lookup "improvement_areas")
        (.str "No specific improvement areas identified."))
      2000 1997 = some ia := by
    have hl : (sanitizedObj a we ed pr ce summary ia).lookup "improvement_areas" = some ia := rfl
    rw [hl]
    exact capField_fix _ _ _ _ (by norm_num) _ hia
  rw [sanitize_eq _ f we ed pr ce summary ia hwe2 hed2 hpr2 hce2 hsum2 hia2]
  congr 1
  show sanitizedObj (sanitizedObj a we ed pr ce summary ia) we ed pr ce summary ia =
    sanitizedObj a we ed pr ce summary ia
  simp [sanitizedObj, List.lookup, jsOrDefault_fix, validateRating_fix, arrOrEmpty]

/-- `capField` passes any falsy value through. -/
theorem capField_falsy (w : JValue) (cap : ℚ) (keep : ℕ) (hw : jsTruthy w = false) :
    capField w cap keep = some w := by
  simp [capField, hw]

/-- Under `noNullElems`, every element handed to the per-item sanitizers is
non-`null`. -/
theorem arrOrEmpty_ne_null (v : Option JValue) (hv : noNullElems v) :
    ∀ x ∈ arrOrEmpty v, x ≠ .null := by
  intro x hx he
  subst he
  rcases v with _ | w
  · simp [arrOrEmpty] at hx
  · rcases w with _ | b | q | s | l | fs
    all_goals simp [arrOrEmpty] at hx
    exact hv l rfl hx

/-- The defaulting-and-cap pipeline succeeds whenever a present truthy value
is a string (the defaults themselves being `null` or strings). -/
theorem capField_default_ok (v : Option JValue) (d : JValue) (cap : ℚ) (keep : ℕ)
    (h0 : 0 ≤ cap) (hv : stringWhenTruthy v) (hd : d = .null ∨ ∃ s0, d = .str s0) :
    ∃ u, capField (jsOrDefault v d) cap keep = some u := by
  have hdok : ∃ u, capField d cap keep = some u := by
    rcases hd with rfl | ⟨s0, rfl⟩
    · exact ⟨_, capField_null cap keep⟩
    · exact capField_str_isSome s0 cap keep h0
  rcases v with _ | x
  · exact hdok
  · by_cases hx : jsTruthy x = true
    · obtain ⟨s, rfl⟩ := hv x rfl hx
      rw [jsOrDefault_truthy _ d hx]
      exact capField_str_isSome s cap keep h0
    · rw [jsOrDefault_falsy x d (by simpa using hx)]
      exact hdok

/-- C1 amended: on every decoded JSON object whose structured-list fields
contain no `null` entries and whose `summary`/`improvement_areas`, when
present and truthy, are strings, the sanitizer raises no error and returns an
object with every key of the Analysis schema, every list-typed field an
array, and an integer rating in `[1, 10]`. -/
theorem sanitizer_total_on_wellformed_inputs :
    ∀ (analysis : JObj) (fileName : String),
      noNullElems (analysis.lookup "work_experience") →
      noNullElems (analysis.lookup "education") →
      noNullElems (analysis.lookup "projects") →
      noNullElems (analysis.lookup "certifications") →
      stringWhenTruthy (analysis.lookup "summary") →
      stringWhenTruthy (analysis.lookup "improvement_areas") →
      ∃ out : JObj, validateAndSanitizeAnalysis analysis fileName = some out ∧
        out.map Prod.fst =
          ["name", "email", "phone", "linkedin_url", "portfolio_url", "summary",
           "work_experience", "education", "technical_skills", "soft_skills",
           "projects", "certifications", "resume_rating", "improvement_areas",
           "upskill_suggestions"] ∧
        (∀ k ∈ ["work_experience", "education", "technical_skills", "soft_skills",
                "projects", "certifications", "upskill_suggestions"],
          ∃ l, out.lookup k = some (.arr l)) ∧
        (∃ rating : ℤ, out.lookup "resume_rating" = some (.num (rating : ℚ)) ∧
          1 ≤ rating ∧ rating ≤ 10) := by
  intro a f h1 h2 h3 h4 h5 h6
  obtain ⟨we, hwe⟩ := mapThrow_some_of _ _
    (fun x hx => sanitizeWorkItem_isSome x (arrOrEmpty_ne_null _ h1 x hx))
  obtain ⟨ed, hed⟩ := mapThrow_some_of _ _
    (fun x hx => sanitizeEduItem_isSome x (arrOrEmpty_ne_null _ h2 x hx))
  obtain ⟨pr, hpr⟩ := mapThrow_some_of _ _
    (fun x hx => sanitizeProjectItem_isSome x (arrOrEmpty_ne_null _ h3 x hx))
  obtain ⟨ce, hce⟩ := mapThrow_some_of _ _
    (fun x hx => sanitizeCertItem_isSome x (arrOrEmpty_ne_null _ h4 x hx))
  obtain ⟨summary, hsum⟩ := capField_default_ok _ .null 1000 997 (by norm_num) h5 (.inl rfl)
  obtain ⟨ia, hia⟩ := capField_default_ok _
    (.str "No specific improvement areas identified.") 2000 1997 (by norm_num) h6
    (.inr ⟨_, rfl⟩)
  refine ⟨sanitizedObj a we ed pr ce summary ia,
    sanitize_eq a f we ed pr ce summary ia hwe hed hpr hce hsum hia, rfl, ?_, ?_⟩
  · intro k hk
    simp only [List.mem_cons, List.not_mem_nil, or_false] at hk
    rcases hk with rfl | rfl | rfl | rfl | rfl | rfl | rfl
    · exact ⟨we, rfl⟩
    · exact ⟨ed, rfl⟩
    · exact ⟨arrOrEmpty (a.lookup "technical_skills"), rfl⟩
    · exact ⟨arrOrEmpty (a.lookup "soft_skills"), rfl⟩
    · exact ⟨pr, rfl⟩
    · exact ⟨ce, rfl⟩
    · exact ⟨arrOrEmpty (a.lookup "upskill_suggestions"), rfl⟩
  · exact ⟨validateRating (a.lookup "resume_rating"), rfl,
      (validateRating_bounds _).1, (validateRating_bounds _).2⟩

/-- C1 counterexample: the sanitizer is not total.  A `null` entry inside
`work_experience` makes the per-item property access throw a `TypeError`,
and a truthy non-string `summary` whose `length` property exceeds the cap
makes `substring` throw. -/
theorem sanitizer_throws_on_null_entry :
    (validateAndSanitizeAnalysis [("work_experience", .arr [.null])] "resume.pdf").isSome = false ∧
    (validateAndSanitizeAnalysis [("summary", .obj [("length", .num 2000)])] "resume.pdf").isSome = false := by
  decide

/-- Witness for C1: the theorem applied to the empty object. -/
theorem sanitizer_total_on_wellformed_inputs_witness :
    ∃ out : JObj, validateAndSanitizeAnalysis [] "resume.pdf" = some out ∧
      out.map Prod.fst =
        ["name", "email", "phone", "linkedin_url", "portfolio_url", "summary",
         "work_experience", "education", "technical_skills", "soft_skills",
         "projects", "certifications", "resume_rating", "improvement_areas",
         "upskill_suggestions"] ∧
      (∀ k ∈ ["work_experience", "education", "technical_skills", "soft_skills",
              "projects", "certifications", "upskill_suggestions"],
        ∃ l, out.lookup k = some (.arr l)) ∧
      (∃ rating : ℤ, out.lookup "resume_rating" = some (.num (rating : ℚ)) ∧
        1 ≤ rating ∧ rating ≤ 10) :=
  sanitizer_total_on_wellformed_inputs [] "resume.pdf"
    (fun _ hl => Option.noConfusion hl) (fun _ hl => Option.noConfusion hl)
    (fun _ hl => Option.noConfusion hl) (fun _ hl => Option.noConfusion hl)
    (fun _ hx _ => Option.noConfusion hx) (fun _ hx _ => Option.noConfusion hx)

/-- The ℚ-valued length bound a successful cap step guarantees for a string
result. -/
theorem capField_out_str (w u : JValue) (cap : ℚ) (keep : ℕ)
    (hk : (keep : ℚ) + 3 ≤ cap) (h : capField w cap keep = some u)
    (s : String) (hu : u = .str s) : (charLen s : ℚ) ≤ cap := by
  rcases capField_some_inv _ _ _ _ h with ⟨rfl, hg⟩ | ⟨t, hw, _, heq⟩
  · subst hu
    rcases Bool.and_eq_false_iff.mp hg with ht | hl
    · have : s = "" := by simpa [jsTruthy] using ht
      subst this
      have : charLen "" = 0 := rfl
      rw [this]
      push_cast
      linarith
    · rw [jsLengthGT_str] at hl
      have : ¬ (cap < (charLen s : ℚ)) := by simpa using hl
      linarith
  · rw [heq] at hu
    cases hu
    rw [charLen_trunc]
    have hmin : (min keep (charLen t) : ℕ) ≤ keep := Nat.min_le_left _ _
    have : ((min keep (charLen t) : ℕ) : ℚ) ≤ (keep : ℚ) := Nat.cast_le.mpr hmin
    push_cast
    push_cast at this
    linarith

/-- C9 amended: after sanitization a string `summary` never exceeds 1000
characters and a string `improvement_areas` never exceeds 2000; a string
longer than the cap is replaced by its first 997 (resp. 1997) characters
plus `'...'`; shorter **nonempty** strings pass through unchanged (an empty
or missing `summary` becomes `null`, an empty or missing
`improvement_areas` becomes the fixed placeholder). -/
theorem caps_spec_amended :
    ∀ (a : JObj) (fileName : String) (y : JObj),
      validateAndSanitizeAnalysis a fileName = some y →
      (∀ s, y.lookup "summary" = some (.str s) → charLen s ≤ 1000) ∧
      (∀ s, y.lookup "improvement_areas" = some (.str s) → charLen s ≤ 2000) ∧
      (∀ s, a.lookup "summary" = some (.str s) → 1000 < charLen s →
        y.lookup "summary" = some (.str (strTakeData 997 s ++ "..."))) ∧
      (∀ s, a.lookup "summary" = some (.str s) → s ≠ "" → charLen s ≤ 1000 →
        y.lookup "summary" = some (.str s)) ∧
      (∀ s, a.lookup "improvement_areas" = some (.str s) → 2000 < charLen s →
        y.lookup "improvement_areas" = some (.str (strTakeData 1997 s ++ "..."))) ∧
      (∀ s, a.lookup "improvement_areas" = some (.str s) → s ≠ "" → charLen s ≤ 2000 →
        y.lookup "improvement_areas" = some (.str s)) := by
  intro a f y h
  obtain ⟨we, ed, pr, ce, summary, ia, hwe, hed, hpr, hce, hsum, hia, rfl⟩ :=
    sanitize_inv a f y h
  have hls : (sanitizedObj a we ed pr ce summary ia).lookup "summary" = some summary := rfl
  have hli : (sanitizedObj a we ed pr ce summary ia).lookup "improvement_areas" = some ia := rfl
  refine ⟨?_, ?_, ?_, ?_, ?_, ?_⟩
  · intro s hs
    rw [hls] at hs
    exact_mod_cast capField_out_str _ _ 1000 997 (by norm_num) hsum s (Option.some.inj hs)
  · intro s hs
    rw [hli] at hs
    exact_mod_cast capField_out_str _ _ 2000 1997 (by norm_num) hia s (Option.some.inj hs)
  · intro s hsa hlen
    have hne : s ≠ "" := by
      intro he
      subst he
      simp [charLen] at hlen
    rw [hsa, jsOrDefault_truthy _ _ ((jsTruthy_str s).mpr hne),
      capField_str_gt s 1000 997 (by norm_num) (by exact_mod_cast hlen)] at hsum
    rw [hls, ← Option.some.inj hsum]
  · intro s hsa hne hlen
    rw [hsa, jsOrDefault_truthy _ _ ((jsTruthy_str s).mpr hne),
      capField_str_le s 1000 997 (by exact_mod_cast hlen)] at hsum
    rw [hls, ← Option.some.inj hsum]
  · intro s hsa hlen
    have hne : s ≠ "" := by
      intro he
      subst he
      simp [charLen] at hlen
    rw [hsa, jsOrDefault_truthy _ _ ((jsTruthy_str s).mpr hne),
      capField_str_gt s 2000 1997 (by norm_num) (by exact_mod_cast hlen)] at hia
    rw [hli, ← Option.some.inj hia]
  · intro s hsa hne hlen
    rw [hsa, jsOrDefault_truthy _ _ ((jsTruthy_str s).mpr hne),
      capField_str_le s 2000 1997 (by exact_mod_cast hlen)] at hia
    rw [hli, ← Option.some.inj hia]

/-- C9 counterexample: an empty-string `summary` does not pass through
unchanged — it becomes `null` — and an empty-string `improvement_areas`
becomes the fixed placeholder. -/
theorem caps_empty_string_not_preserved :
    (validateAndSanitizeAnalysis [("summary", .str ""), ("improvement_areas", .str "")]
        "resume.pdf").map (fun y => (y.lookup "summary", y.lookup "improvement_areas")) =
      some (some .null, some (.str "No specific improvement areas identified.")) ∧
    JValue.null ≠ JValue.str "" :=
  ⟨rfl, fun hc => JValue.noConfusion hc⟩

/-- Witness for C9: short nonempty strings pass through unchanged. -/
theorem caps_spec_amended_witness :
    capsWitnessOutput.lookup "summary" = some (.str "hello") ∧
    capsWitnessOutput.lookup "improvement_areas" = some (.str "x") :=
  ⟨(caps_spec_amended capsWitnessInput "resume.pdf" capsWitnessOutput rfl).2.2.2.1 "hello"
      rfl (by decide) (by decide),
    (caps_spec_amended capsWitnessInput "resume.pdf" capsWitnessOutput rfl).2.2.2.2.2 "x"
      rfl (by decide) (by decide)⟩

/-- Witness for C10: the sanitizer output for the empty object is a fixed
point. -/
theorem sanitizer_idempotent_witness :
    validateAndSanitizeAnalysis emptyAnalysis "resume.pdf" = some emptyAnalysis :=
  sanitizer_idempotent [] "resume.pdf" emptyAnalysis rfl
